import Mathlib

/-!
Shallow embedding of the hex-view core of `src/src/widgets/HexWidget.cpp`
(class `HexWidget` and its `MemoryCache`), together with theorems checking
the natural-language specification against it.

Conventions:
* machine integers are modelled as `Nat` (for `uint64_t` / `uint` / non-negative
  `int` values) with explicit `% 2 ^ 64` where the C++ arithmetic wraps, and as
  `Int` where signedness matters;
* bytes are `Nat` values `< 256`;
* the small inline helpers of `HexWidget.h` (which is not part of the sources
  at hand) are modelled from the spec, and are marked as such;
* pane origins and pixel metrics come from the host (font metrics), so they are
  plain fields of the state, as the spec prescribes.
-/

namespace HexWidget

/-- The item formats, following the `ItemFormat` enum order of the source. -/
inductive ItemFormat
  | hex
  | oct
  | dec
  | signedDec
  | float
  deriving DecidableEq

/-- Semantic byte-color classes used by `HexWidget::itemColor` (the source
stores concrete `QColor` palette entries `defColor`, `b0x00Color`,
`b0x7fColor`, `b0xffColor`, `printableColor`; only their identity matters). -/
inductive Color
  | defColor
  | b0x00
  | b0x7f
  | b0xff
  | printableCol
  deriving DecidableEq

/-- The state of the widget that the embedded operations read and write:
layout configuration, font metrics, pane origins and the viewport fields
(`startAddress`, `visibleLines`, `cursor.addr`).  Pane rectangles are
positioned by the host-facing metrics code, so their coordinates are plain
fields here. -/
structure LayoutState where
  itemByteLen : Nat
  itemGroupSize : Nat
  itemColumns : Nat
  itemFormat : ItemFormat
  itemBigEndian : Bool
  showExHex : Bool
  itemCharLen : Nat
  itemPrefixLen : Nat
  charWidth : Nat
  lineHeight : Nat
  /-- inter-group spacing, in characters (`columnSpacing` of the source). -/
  columnSpacing : Nat
  itemAreaX : Nat
  itemAreaY : Nat
  /-- right edge of the item area (`itemArea.right()`), set by the layout code. -/
  itemAreaRight : Int
  asciiAreaX : Nat
  asciiAreaY : Nat
  /-- right edge of the ascii area (`asciiArea.right()`). -/
  asciiAreaRight : Int
  startAddress : Nat
  visibleLines : Nat
  cursorAddr : Nat
  deriving DecidableEq

/-- Modelled from the spec: `itemGroupByteLen()` of `HexWidget.h` —
bytes in one item group = `groupSize × itemByteLen`. -/
def itemGroupByteLen (st : LayoutState) : Nat :=
  st.itemGroupSize * st.itemByteLen

/-- Modelled from the spec: `itemRowByteLen()` of `HexWidget.h` —
"Row byte length: bytes represented by one visible line =
columns × groupSize × itemByteLen". -/
def itemRowByteLen (st : LayoutState) : Nat :=
  st.itemColumns * itemGroupByteLen st

/-- Modelled from the spec: `bytesPerScreen()` of `HexWidget.h` —
`visibleLines × rowByteLen`. -/
def bytesPerScreen (st : LayoutState) : Nat :=
  itemRowByteLen st * st.visibleLines

/-- Modelled from the spec: `itemWidth()` of `HexWidget.h` —
"itemPixelWidth = itemCharLen × charWidth". -/
def itemWidth (st : LayoutState) : Nat :=
  st.itemCharLen * st.charWidth

/-- Modelled from the spec: `columnExWidth()` of `HexWidget.h` —
"groupPixelWidth = groupSize × itemPixelWidth + inter-group spacing". -/
def columnExWidth (st : LayoutState) : Nat :=
  st.itemGroupSize * itemWidth st + st.columnSpacing * st.charWidth

/-- `startAddress + bytesPerScreen()` as computed in `uint64_t` arithmetic. -/
def windowEnd (st : LayoutState) : Nat :=
  (st.startAddress + bytesPerScreen st) % 2 ^ 64

/-- The hex prefix string prepended when `showExHex` is set. -/
def hexPrefixStr : String := "0x"

/-- `HexWidget::updateItemLength` (lines 346-410): recomputes `itemCharLen`
and `itemPrefixLen` from the format and byte length, forces
`itemByteLen ≥ 4` for the float format, and resets the group size to 1
outside the byteLen-1/hex pairing mode.  The trailing
`updateAreasPosition()` call repositions the pane rectangles from the
host-supplied font metrics; pane positions are plain fields here. -/
def updateItemLength (st0 : LayoutState) : LayoutState :=
  let st1 := { st0 with itemPrefixLen := 0 }
  let st2 :=
    match st1.itemFormat with
    | ItemFormat.hex =>
        let sth := { st1 with itemCharLen := 2 * st1.itemByteLen }
        if sth.itemByteLen > 1 ∧ sth.showExHex then
          { sth with itemPrefixLen := hexPrefixStr.length }
        else
          sth
    | ItemFormat.oct => { st1 with itemCharLen := (st1.itemByteLen * 8 + 3) / 3 }
    | ItemFormat.dec =>
        { st1 with itemCharLen :=
            match st1.itemByteLen with
            | 1 => 3
            | 2 => 5
            | 4 => 10
            | 8 => 20
            | _ => st1.itemCharLen }
    | ItemFormat.signedDec =>
        { st1 with itemCharLen :=
            match st1.itemByteLen with
            | 1 => 4
            | 2 => 6
            | 4 => 11
            | 8 => 20
            | _ => st1.itemCharLen }
    | ItemFormat.float =>
        let stf := if st1.itemByteLen < 4 then { st1 with itemByteLen := 4 } else st1
        { stf with itemCharLen := 3 * stf.itemByteLen }
  let st3 := { st2 with itemCharLen := st2.itemCharLen + st2.itemPrefixLen }
  if st3.itemByteLen = 1 ∧ st3.itemFormat = ItemFormat.hex then
    st3
  else
    { st3 with itemGroupSize := 1 }

/-- `HexWidget::setItemSize` (lines 109-126): byte lengths outside
{1, 2, 4, 8} are rejected before any state is touched; valid ones are stored
and `updateItemLength` re-derives the dependent lengths. -/
def setItemSize (st : LayoutState) (nbytes : Nat) : LayoutState :=
  if nbytes ∈ ([1, 2, 4, 8] : List Nat) then
    updateItemLength { st with itemByteLen := nbytes }
  else
    st

/-- `HexWidget::setColumnCount` (lines 157-167): the column count is stored
unconditionally; the source carries a FIXME noting the missing validation. -/
def setColumnCount (st : LayoutState) (columns : Nat) : LayoutState :=
  { st with itemColumns := columns }

/-- `HexWidget::setCursorAddr` (lines 639-673), restricted to the fields it
writes: the cursor address is stored first; when the address falls outside
the current window the start address is re-derived (row-aligned), moving
forward by exactly one row when the aligned address is just past the window.
The `updateDataCache` / `updateCursorMeta` calls refresh derived data
modelled separately. -/
def setCursorAddr (st : LayoutState) (addr : Nat) : LayoutState :=
  let st1 := { st with cursorAddr := addr }
  if addr ≥ st.startAddress ∧ addr < windowEnd st then
    st1
  else
    let addr2 := if itemRowByteLen st ≠ 1 then addr - addr % itemRowByteLen st else addr
    if addr2 = windowEnd st then
      { st1 with startAddress := (st.startAddress + itemRowByteLen st) % 2 ^ 64 }
    else
      { st1 with startAddress := addr2 }

/-- `HexWidget::moveCursor` (lines 632-637): `cursor.addr + offset` in
`uint64_t` arithmetic (the `int` offset is sign-extended), then
`setCursorAddr`. -/
def moveCursor (st : LayoutState) (offset : Int) : LayoutState :=
  setCursorAddr st (((st.cursorAddr : Int) + offset) % (2 ^ 64 : Int)).toNat

/-- The key navigation commands of `HexWidget::keyPressEvent`
(`QKeySequence::MoveTo...`). -/
inductive KeyCmd
  | lineUp
  | lineDown
  | charLeft
  | charRight
  | pageUp
  | pageDown
  deriving DecidableEq

/-- `HexWidget::keyPressEvent` (lines 296-312).  Note that the source passes
the same positive offset for `MoveToPreviousPage` as for `MoveToNextPage`. -/
def keyPressEvent (st : LayoutState) (cmd : KeyCmd) : LayoutState :=
  match cmd with
  | KeyCmd.lineDown => moveCursor st (itemRowByteLen st : Int)
  | KeyCmd.lineUp => moveCursor st (-(itemRowByteLen st : Int))
  | KeyCmd.charRight => moveCursor st (st.itemByteLen : Int)
  | KeyCmd.charLeft => moveCursor st (-(st.itemByteLen : Int))
  | KeyCmd.pageDown => moveCursor st ((st.visibleLines * itemRowByteLen st : Nat) : Int)
  | KeyCmd.pageUp => moveCursor st ((st.visibleLines * itemRowByteLen st : Nat) : Int)

/-- `MemoryCache` (from the source): page-aligned base address, offset of the
requested range inside the first page, and the fetched pages. -/
structure MemoryCache where
  firstBlockAddr : Nat
  firstBlockOffset : Nat
  blocks : List (List Nat)
  deriving DecidableEq

/-- `HexWidget::updateDataCache` (lines 838-851): aligns `startAddress` down
to a 4096-byte page, rounds the covered length up to whole pages, clears the
retained pages and re-reads every page from the byte source
(`Core()->ioRead`).  `read` is the byte source: it is handed a page address
and returns the bytes of that 4096-byte page.  The previous cache contents
`mc` are discarded (the source calls `blocks.clear()` unconditionally). -/
def updateDataCache (read : Nat → List Nat) (st : LayoutState) (_mc : MemoryCache) :
    MemoryCache :=
  let alignedAddr := st.startAddress &&& (2 ^ 64 - 4096)
  let offset := st.startAddress - alignedAddr
  let len := (offset + bytesPerScreen st + (4096 - 1)) &&& (2 ^ 64 - 4096)
  { firstBlockAddr := alignedAddr
    firstBlockOffset := offset
    blocks := (List.range (len / 4096)).map fun i => read ((alignedAddr + 4096 * i) % 2 ^ 64) }

/-- `MemoryCache::dataPtr` (lines 901-907): resolves a cache-relative offset
to a page and an intra-page index.  The source returns a raw pointer; the
byte it designates is returned here, `none` standing for an out-of-range
access (`blocks.at` / pointer arithmetic past the fetched data). -/
def dataPtr (mc : MemoryCache) (offset : Nat) : Option Nat :=
  let totalOffset := offset + mc.firstBlockOffset
  let blockId := totalOffset / 4096
  let blockOffset := totalOffset % 4096
  (mc.blocks.get? blockId).bind fun b => b.get? blockOffset

/-- The run of `n` bytes starting at the pointer `MemoryCache::dataPtr offset`,
as read by `HexWidget::readItem` (`qFromLittleEndian` etc. dereference `n`
consecutive bytes inside the resolved page). -/
def readBytesAt (mc : MemoryCache) (offset n : Nat) : List Nat :=
  let totalOffset := offset + mc.firstBlockOffset
  let blockId := totalOffset / 4096
  let blockOffset := totalOffset % 4096
  ((mc.blocks.getD blockId []).drop blockOffset).take n

/-- `HexWidget::screenPosToAddr` (lines 853-865): pixel point (already inside
the item area) back to an address, in `uint64_t` arithmetic. -/
def screenPosToAddr (st : LayoutState) (pt : Nat × Nat) : Nat :=
  let px := pt.1 - st.itemAreaX
  let py := pt.2 - st.itemAreaY
  let a1 := st.startAddress + py / st.lineHeight * itemRowByteLen st
  let a2 := a1 + px / columnExWidth st * itemGroupByteLen st
  let px2 := px % columnExWidth st
  (a2 + px2 / itemWidth st * st.itemByteLen) % 2 ^ 64

/-- Top-left corner of `HexWidget::itemRectangle` (lines 867-883) for a
window-relative byte offset. -/
def itemRectangleTopLeft (st : LayoutState) (offset : Nat) : Nat × Nat :=
  let y := offset / itemRowByteLen st * st.lineHeight
  let o1 := offset % itemRowByteLen st
  let x := o1 / itemGroupByteLen st * columnExWidth st
  let o2 := o1 % itemGroupByteLen st
  let x2 := x + o2 / st.itemByteLen * itemWidth st
  (x2 + st.itemAreaX, y + st.itemAreaY)

/-- A `QRect`, stored as Qt stores it: both corners, so that `right() = x2`
and `bottom() = y2` (a `QRect(x, y, w, h)` has `x2 = x + w - 1`). -/
structure Rect where
  x1 : Int
  y1 : Int
  x2 : Int
  y2 : Int
  deriving DecidableEq

/-- `HexWidget::itemRectangle` (lines 867-883) as a full rectangle of size
`itemWidth × lineHeight`. -/
def itemRectangle (st : LayoutState) (offset : Nat) : Rect :=
  let tl := itemRectangleTopLeft st offset
  { x1 := tl.1
    y1 := tl.2
    x2 := (tl.1 : Int) + (itemWidth st : Int) - 1
    y2 := (tl.2 : Int) + (st.lineHeight : Int) - 1 }

/-- `HexWidget::asciiRectangle` (lines 885-899). -/
def asciiRectangle (st : LayoutState) (offset : Nat) : Rect :=
  let y := offset / itemRowByteLen st * st.lineHeight
  let x := offset % itemRowByteLen st * st.charWidth + st.asciiAreaX
  { x1 := x
    y1 := y + st.asciiAreaY
    x2 := (x : Int) + (st.charWidth : Int) - 1
    y2 := ((y + st.asciiAreaY : Nat) : Int) + (st.lineHeight : Int) - 1 }

/-- Modelled from the spec: `IS_PRINTABLE` (defined in the project headers,
not under the sources at hand) — "printable-ASCII". -/
def isPrintable (byte : Nat) : Bool :=
  32 ≤ byte ∧ byte ≤ 126

/-- `HexWidget::itemColor` (lines 716-731): classification of a byte into a
semantic color class. -/
def itemColor (byte : Nat) : Color :=
  if byte = 0x00 then Color.b0x00
  else if byte = 0x7f then Color.b0x7f
  else if byte = 0xff then Color.b0xff
  else if isPrintable byte then Color.printableCol
  else Color.defColor

/-- `qFromLittleEndian<quintN>`: least significant byte first. -/
def fromLittleEndian (bytes : List Nat) : Nat :=
  bytes.foldr (fun b acc => acc * 256 + b) 0

/-- `qFromBigEndian<quintN>`: most significant byte first. -/
def fromBigEndian (bytes : List Nat) : Nat :=
  bytes.foldl (fun acc b => acc * 256 + b) 0

/-- Reinterpret an unsigned `width`-bit value as a two's-complement signed
integer (the `static_cast<qintN>` casts of `readItem`). -/
def toSigned (v width : Nat) : Int :=
  if v < 2 ^ (width - 1) then (v : Int) else (v : Int) - 2 ^ width

/-- The dyadic rational `m * 2 ^ e`, for an `Int` exponent. -/
def dyadic (m : Int) (e : Int) : ℚ :=
  if 0 ≤ e then mkRat (m * 2 ^ e.toNat) 1 else mkRat m (2 ^ (-e).toNat)

/-- IEEE-754 single-precision interpretation of a 32-bit pattern
(the `*ptrFloat32` reinterpretation in `readItem`), as an exact rational;
`none` for infinities and NaNs.  A normal number with biased exponent `expo`
and mantissa `frac` is `(2^23 + frac) * 2^(expo - 127 - 23)`; a subnormal is
`frac * 2^(-149)`. -/
def decodeFloat32 (bits : Nat) : Option ℚ :=
  let sign : Nat := bits / 2 ^ 31 % 2
  let expo : Nat := bits / 2 ^ 23 % 2 ^ 8
  let frac : Nat := bits % 2 ^ 23
  if expo = 2 ^ 8 - 1 then none
  else
    let mag : ℚ :=
      if expo = 0 then dyadic frac (-149)
      else dyadic ((2 ^ 23 + frac : Nat) : Int) ((expo : Int) - 127 - 23)
    some (if sign = 1 then -mag else mag)

/-- IEEE-754 double-precision interpretation of a 64-bit pattern
(the `*ptrFloat64` reinterpretation in `readItem`). -/
def decodeFloat64 (bits : Nat) : Option ℚ :=
  let sign : Nat := bits / 2 ^ 63 % 2
  let expo : Nat := bits / 2 ^ 52 % 2 ^ 11
  let frac : Nat := bits % 2 ^ 52
  if expo = 2 ^ 11 - 1 then none
  else
    let mag : ℚ :=
      if expo = 0 then dyadic frac (-1074)
      else dyadic ((2 ^ 52 + frac : Nat) : Int) ((expo : Int) - 1023 - 52)
    some (if sign = 1 then -mag else mag)

/-- The tagged value held by the `QVariant` that `readItem` returns: an
unsigned integer (`quint64`), a signed integer (`qint64`), a float value
(exact rational, `none` for non-finite patterns), or the invalid variant
`QVariant()` of the fall-through path. -/
inductive ItemValue
  | uVal (v : Nat)
  | iVal (v : Int)
  | fVal (v : Option ℚ)
  | invalid
  deriving DecidableEq

/-- `QVariant::toULongLong` on the variants produced by `readItem`
(the signed-to-unsigned conversion is the modular cast; the float and
invalid conversions never arise in the formats that call them). -/
def ItemValue.toULongLong : ItemValue → Nat
  | ItemValue.uVal v => v
  | ItemValue.iVal v => (v % (2 ^ 64 : Int)).toNat
  | ItemValue.fVal _ => 0
  | ItemValue.invalid => 0

/-- `QVariant::toLongLong` on the variants produced by `readItem`. -/
def ItemValue.toLongLong : ItemValue → Int
  | ItemValue.uVal v => toSigned v 64
  | ItemValue.iVal v => v
  | ItemValue.fVal _ => 0
  | ItemValue.invalid => 0

/-- `QVariant::toDouble` on the variants produced by `readItem` (only the
float variant reaches it; a non-finite pattern is outside this model). -/
def ItemValue.toDouble : ItemValue → ℚ
  | ItemValue.fVal (some q) => q
  | _ => 0

/-- `HexWidget::readItem` (lines 733-794): decodes the byte run at a
window-relative offset into a tagged value, and produces the item color —
the classification of the first byte for single-byte items, the default
color for wider items.  The fall-through case leaves the caller's color
unset in the source; it is the default color object there. -/
def readItem (st : LayoutState) (mc : MemoryCache) (offset : Nat) :
    ItemValue × Color :=
  let bytes := readBytesAt mc offset st.itemByteLen
  let signedItem := st.itemFormat = ItemFormat.signedDec
  match st.itemByteLen with
  | 1 =>
      let byte := bytes.getD 0 0
      (if ¬signedItem then ItemValue.uVal byte else ItemValue.iVal (toSigned byte 8),
       itemColor byte)
  | 2 =>
      let word := if st.itemBigEndian then fromBigEndian bytes else fromLittleEndian bytes
      (if ¬signedItem then ItemValue.uVal word else ItemValue.iVal (toSigned word 16),
       Color.defColor)
  | 4 =>
      let dword := if st.itemBigEndian then fromBigEndian bytes else fromLittleEndian bytes
      (if st.itemFormat = ItemFormat.float then ItemValue.fVal (decodeFloat32 dword)
       else if ¬signedItem then ItemValue.uVal dword
       else ItemValue.iVal (toSigned dword 32),
       Color.defColor)
  | 8 =>
      let qword := if st.itemBigEndian then fromBigEndian bytes else fromLittleEndian bytes
      (if st.itemFormat = ItemFormat.float then ItemValue.fVal (decodeFloat64 qword)
       else if ¬signedItem then ItemValue.uVal qword
       else ItemValue.iVal (toSigned qword 64),
       Color.defColor)
  | _ => (ItemValue.invalid, Color.defColor)

/-- Right-align a string in a field of `w` characters filled with `c`:
the padding behaviour of `QString::arg` with a positive field width. -/
def padLeftChar (s : String) (w : Nat) (c : Char) : String :=
  String.mk (List.replicate (w - s.length) c) ++ s

/-- Digits of `n` in the given base, most significant first, lowercase —
the digit rendering of `QString::arg(value, width, base, fill)`. -/
def natToBaseStr (base n : Nat) : String :=
  String.mk (Nat.toDigits base n)

/-- Signed decimal rendering, as `QString::arg(qlonglong, width, 10)`
renders the number itself. -/
def intToDecStr (i : Int) : String :=
  if i < 0 then "-" ++ natToBaseStr 10 (-i).toNat else natToBaseStr 10 i.toNat

/-- Model of the float rendering of `QString::arg(double a, int fieldWidth)`
(format `g`, default precision: shortest decimal form): exact decimal
expansion, trailing zeros omitted, no decimal point for integral values.
Faithful for the dyadic rationals produced by IEEE-754 decoding (every
finite double has a finite decimal expansion of at most 1074 fractional
digits). -/
def doubleToQtStr (q : ℚ) : String :=
  let sgn := if q.num < 0 then "-" else ""
  let n : Nat := q.num.natAbs
  let d : Nat := q.den
  let k := (((List.range 1101).find? fun k => decide (d ∣ 10 ^ k)).getD 1100)
  let m := n * (10 ^ k / d)
  if k = 0 then
    sgn ++ natToBaseStr 10 m
  else
    sgn ++ natToBaseStr 10 (m / 10 ^ k) ++ "." ++ padLeftChar (natToBaseStr 10 (m % 10 ^ k)) k '0'

/-- `HexWidget::renderItem` (lines 796-824): renders the decoded value to its
fixed-width display string (`QString("%1").arg(...)` with the format's base,
field width `itemCharLen - itemPrefixLen` and fill character), prepending the
hex prefix for multi-byte hexadecimal items, and passes the color from
`readItem` through. -/
def renderItem (st : LayoutState) (mc : MemoryCache) (offset : Nat) :
    String × Color :=
  let vc := readItem st mc offset
  let itemLen := st.itemCharLen - st.itemPrefixLen
  let text :=
    match st.itemFormat with
    | ItemFormat.hex =>
        let s := padLeftChar (natToBaseStr 16 vc.1.toULongLong) itemLen '0'
        if st.itemByteLen > 1 ∧ st.showExHex then hexPrefixStr ++ s else s
    | ItemFormat.oct => padLeftChar (natToBaseStr 8 vc.1.toULongLong) itemLen '0'
    | ItemFormat.dec => padLeftChar (natToBaseStr 10 vc.1.toULongLong) itemLen ' '
    | ItemFormat.signedDec => padLeftChar (intToDecStr vc.1.toLongLong) itemLen ' '
    | ItemFormat.float => padLeftChar (doubleToQtStr vc.1.toDouble) itemLen ' '
  (text, vc.2)

/-- `HexWidget::renderAscii` (lines 826-836): the byte at the offset, shown
as itself when printable and as a dot otherwise, colored by its
classification. -/
def renderAscii (mc : MemoryCache) (offset : Nat) : Char × Color :=
  let byte := (readBytesAt mc offset 1).getD 0 0
  (if ¬isPrintable byte then '.' else Char.ofNat byte, itemColor byte)

/-- Modelled from the spec: the selection object (`HexSelection`, declared in
`HexWidget.h`, which is not among the sources at hand).  "Selection:
anchorAddress, currentAddress (u64, or empty/unset).  Normalized start =
min(anchor,current), end = max(anchor,current)+1 (half-open).  Empty when
unset."  Only the normalized view is needed here. -/
structure HexSelection where
  unset : Bool
  /-- normalized start = min(anchor, current). -/
  startAddr : Nat
  /-- normalized half-open end = max(anchor, current) + 1. -/
  endAddr : Nat
  deriving DecidableEq

/-- Modelled from the spec: `HexSelection::intersects` — "true iff normalized
range overlaps [windowStart, windowEnd)". -/
def HexSelection.intersects (sel : HexSelection) (lo hi : Nat) : Bool :=
  ¬sel.unset ∧ sel.startAddr < hi ∧ lo < sel.endAddr

/-- `HexWidget::fillSelectionBackground` (lines 531-572), as the list of
rectangles it fills, in fill order.  The offsets are `int` values in the
source; the two's-complement mask `~(itemRowByteLen()-1)` on a non-negative
32-bit value is `&&& (2^32 - itemRowByteLen())`, and the comparison guarding
the main body runs after the `--endOffset2` decrement, so it is taken over
`Int`.  Two quirks of the source are preserved: the guard of the bottom
piece is commented out (the piece is always drawn once the row-aligned
bounds are ordered), and the bottom-right corner of the main body is taken
from `asciiRectangle` in both branches of its conditional. -/
def fillSelectionBackground (st : LayoutState) (sel : HexSelection) (ascii : Bool) :
    List Rect :=
  if ¬sel.intersects st.startAddress (windowEnd st) then []
  else
    let startOffset : Nat := max sel.startAddr st.startAddress - st.startAddress
    let endOffset : Nat := min sel.endAddr (windowEnd st) - st.startAddress
    let r : Nat := itemRowByteLen st
    let startOffset2 : Nat := (startOffset + (r - 1)) &&& (2 ^ 32 - r)
    let endOffset2 : Nat := endOffset &&& (2 ^ 32 - r)
    if startOffset2 ≤ endOffset2 then
      let topPiece : List Rect :=
        if startOffset ≠ startOffset2 then
          [{ (if ascii then asciiRectangle st startOffset else itemRectangle st startOffset) with
              x2 := if ascii then st.asciiAreaRight else st.itemAreaRight }]
        else []
      let bottomPiece : List Rect :=
        [{ (if ascii then asciiRectangle st endOffset else itemRectangle st endOffset) with
            x1 := if ascii then (st.asciiAreaX : Int) else (st.itemAreaX : Int) }]
      let mainBody : List Rect :=
        if (startOffset2 : Int) ≤ (endOffset2 : Int) - 1 then
          [{ (if ascii then asciiRectangle st startOffset2 else itemRectangle st startOffset2) with
              x2 := (asciiRectangle st (endOffset2 - 1)).x2
              y2 := (asciiRectangle st (endOffset2 - 1)).y2 }]
        else []
      topPiece ++ bottomPiece ++ mainBody
    else
      if startOffset ≤ endOffset then
        [{ (if ascii then asciiRectangle st startOffset else itemRectangle st startOffset) with
            x2 := (asciiRectangle st endOffset).x2
            y2 := (asciiRectangle st endOffset).y2 }]
      else []

/-- Modelled from the spec: a successful ByteSource (`Core()->ioRead`) —
"read(address, length) -> bytes | ReadError.  Must return exactly `length`
bytes"; `mem` gives the byte stored at each address, and each page request
of `updateDataCache` has length 4096. -/
def pageReadOf (mem : Nat → Nat) : Nat → List Nat :=
  fun a => (List.range 4096).map fun j => mem (a + j)

/-- Modelled from the spec: a failing ByteSource read — the source calls
`Core()->ioRead` with no error channel at the call site, so a failed read
delivers no valid bytes; it is modelled as the empty byte array. -/
def failingRead : Nat → List Nat :=
  fun _ => []

/-!  Concrete instances used by the closed theorems below. -/

/-- The configuration established by the `HexWidget` constructor
(lines 14-88): byteLen 1, group size 1, 16 columns, hexadecimal format,
little endian, prefixes shown, addresses 0 — with arbitrary positive font
metrics and pane positions (these come from the host). -/
def defaultState : LayoutState :=
  updateItemLength
    { itemByteLen := 1
      itemGroupSize := 1
      itemColumns := 16
      itemFormat := ItemFormat.hex
      itemBigEndian := false
      showExHex := true
      itemCharLen := 2
      itemPrefixLen := 0
      charWidth := 8
      lineHeight := 16
      columnSpacing := 1
      itemAreaX := 80
      itemAreaY := 0
      itemAreaRight := 500
      asciiAreaX := 600
      asciiAreaY := 0
      asciiAreaRight := 800
      startAddress := 0
      visibleLines := 25
      cursorAddr := 0 }

/-- A two-byte-item layout with unit metrics, for the geometry
counterexample: one column, one group, `bytesPerScreen = 2`. -/
def stPair : LayoutState :=
  { defaultState with
      itemByteLen := 2
      itemCharLen := 4
      itemGroupSize := 1
      itemColumns := 1
      charWidth := 1
      lineHeight := 1
      itemAreaX := 0
      itemAreaY := 0
      startAddress := 0
      visibleLines := 1 }

/-- Four columns of single bytes over three lines with unit metrics, for the
selection-highlight evaluation (`itemRowByteLen = 4`, `bytesPerScreen = 12`). -/
def stSel : LayoutState :=
  { defaultState with
      itemColumns := 4
      visibleLines := 3
      charWidth := 1
      lineHeight := 1
      itemCharLen := 2
      itemAreaX := 0
      itemAreaY := 0
      itemAreaRight := 50
      asciiAreaX := 100
      asciiAreaY := 0
      asciiAreaRight := 150
      startAddress := 0 }

/-- A selection spanning exactly row 1 of `stSel`'s window: normalized range
[4, 8) with `itemRowByteLen = 4`. -/
def selRow : HexSelection :=
  { unset := false, startAddr := 4, endAddr := 8 }

/-- Default layout scrolled to address 5000 with two visible lines
(`bytesPerScreen = 32`). -/
def stMid : LayoutState :=
  { defaultState with startAddress := 5000, visibleLines := 2 }

/-- Default layout at address 0 with two visible lines. -/
def stZero : LayoutState :=
  { defaultState with startAddress := 0, visibleLines := 2 }

/-- Default layout used by the paging theorems: window [0x100, 0x140),
cursor at 0x200, four visible lines (`itemRowByteLen = 16`). -/
def stPage : LayoutState :=
  { defaultState with startAddress := 0x100, cursorAddr := 0x200, visibleLines := 4 }

/-- Four columns over two lines at address 0 (`itemRowByteLen = 4`,
`bytesPerScreen = 8`), for the window-advance witness. -/
def stRow4 : LayoutState :=
  { defaultState with itemColumns := 4, visibleLines := 2, startAddress := 0, cursorAddr := 0 }

/-- A byte source storing `a % 256` at address `a`. -/
def memMod256 : Nat → Nat :=
  fun a => a % 256

/-- An empty cache. -/
def mcNil : MemoryCache :=
  { firstBlockAddr := 0, firstBlockOffset := 0, blocks := [] }

/-- A previously filled cache holding valid bytes. -/
def mcPrev : MemoryCache :=
  { firstBlockAddr := 0, firstBlockOffset := 0, blocks := [[1, 2, 3]] }

/-- 32-bit little-endian hex item state (`itemCharLen = 8`), prefix display
disabled. -/
def stHex4 : LayoutState :=
  updateItemLength
    { defaultState with itemByteLen := 4, itemFormat := ItemFormat.hex, showExHex := false }

/-- The bytes 78 56 34 12 at offset 0. -/
def mcHex : MemoryCache :=
  { firstBlockAddr := 0, firstBlockOffset := 0, blocks := [[0x78, 0x56, 0x34, 0x12]] }

/-- Single-byte signed-decimal state (`itemCharLen = 4`). -/
def stSD1 : LayoutState :=
  updateItemLength { defaultState with itemByteLen := 1, itemFormat := ItemFormat.signedDec }

/-- The byte 0xFF at offset 0. -/
def mcFF : MemoryCache :=
  { firstBlockAddr := 0, firstBlockOffset := 0, blocks := [[0xff]] }

/-- 32-bit float state (`itemCharLen = 12`). -/
def stF4 : LayoutState :=
  updateItemLength { defaultState with itemByteLen := 4, itemFormat := ItemFormat.float }

/-- The IEEE-754 single-precision bit pattern of 1.5 (0x3FC00000), little
endian. -/
def mcF : MemoryCache :=
  { firstBlockAddr := 0, firstBlockOffset := 0, blocks := [[0x00, 0x00, 0xc0, 0x3f]] }

/-- Two-byte hex item state derived by `updateItemLength`. -/
def stW2 : LayoutState :=
  updateItemLength { defaultState with itemByteLen := 2 }

/-- A zero byte followed by a printable byte. -/
def mc00 : MemoryCache :=
  { firstBlockAddr := 0, firstBlockOffset := 0, blocks := [[0x00, 0x41]] }

/-!  Theorems. -/

/-- `setCursorAddr` stores the requested address in `cursor.addr` on every
path (the source writes `cursor.addr = addr` before the window test). -/
theorem setCursorAddr_cursorAddr (st : LayoutState) (addr : Nat) :
    (setCursorAddr st addr).cursorAddr = addr := by
  unfold setCursorAddr
  by_cases h : addr ≥ st.startAddress ∧ addr < windowEnd st
  · simp only [if_pos h]
  · simp only [if_neg h]
    split <;> split <;> rfl

/-- C6: `setItemSize` rejects byte lengths outside {1,2,4,8} leaving the whole
state unchanged, but `setColumnCount` performs no validation at all: a zero
column count is stored (the source only carries a FIXME about the missing
check), overwriting the prior value 16 of the default configuration. -/
theorem setColumnCount_accepts_zero :
    (setColumnCount defaultState 0).itemColumns = 0 ∧
    defaultState.itemColumns = 16 ∧
    setItemSize defaultState 3 = defaultState ∧
    setItemSize defaultState 0 = defaultState := by
  decide

/-- C3: evaluated at the concrete state `stPage` (cursor 0x200, four visible
lines of 16 bytes), the page-up command moves the cursor forward by
`visibleLines * itemRowByteLen` — the source passes the same positive offset
to `moveCursor` for `MoveToPreviousPage` as for `MoveToNextPage` — instead of
backward as the other five commands' pattern (and the spec) prescribe. -/
theorem keyPressEvent_pageUp_moves_forward :
    (keyPressEvent stPage KeyCmd.pageUp).cursorAddr
        = stPage.cursorAddr + stPage.visibleLines * itemRowByteLen stPage ∧
    (keyPressEvent stPage KeyCmd.pageUp).cursorAddr
        = (keyPressEvent stPage KeyCmd.pageDown).cursorAddr ∧
    (keyPressEvent stPage KeyCmd.pageUp).cursorAddr
        ≠ stPage.cursorAddr - stPage.visibleLines * itemRowByteLen stPage := by
  decide

/-- C5 (counterexample): `updateDataCache` discards the previously valid
cache contents unconditionally: with a failing byte source it leaves the
cache holding the failed (empty) page instead of the prior bytes, and no
failure is signalled anywhere. -/
theorem updateDataCache_read_failure_counterexample :
    (updateDataCache failingRead stZero mcPrev).blocks = [[]] ∧
    mcPrev.blocks = [[1, 2, 3]] ∧
    (updateDataCache failingRead stZero mcPrev).blocks ≠ mcPrev.blocks := by
  decide

/-- C5 (amended): the cache rebuild has no failure path and never consults
the previous cache: two runs from arbitrary prior caches (one of them
possibly holding valid data the other not) produce identical results, fully
determined by the fresh reads — `blocks.clear()` runs before any read. -/
theorem updateDataCache_ignores_previous_cache (read : Nat → List Nat)
    (st : LayoutState) (mc mc2 : MemoryCache) :
    updateDataCache read st mc = updateDataCache read st mc2 := by
  rfl

/-- C7 (counterexample): the spec's reference string for the signed-decimal
example omits the field padding: `QString("%1").arg(value, itemLen, 10)`
right-aligns in a field of `itemCharLen = 4` characters with space fill, so
byte 0xFF renders as `"  -1"`, not as the bare `"-1"`. -/
theorem renderItem_signedDec_counterexample :
    (renderItem stSD1 mcFF 0).1 ≠ "-1" ∧
    stSD1.itemByteLen = 1 ∧ stSD1.itemFormat = ItemFormat.signedDec := by
  decide

set_option maxRecDepth 4000 in
/-- C7 (amended): the three reference decodings, with the rendered strings
carrying their fixed-width field padding: little-endian bytes
78 56 34 12 in 4-byte hex format (prefix display off) give "12345678";
byte 0xFF in signed decimal gives -1 right-aligned in 4 characters;
the IEEE-754 single bits of 1.5 give 1.5 right-aligned in 12 characters. -/
theorem renderItem_reference_values :
    (renderItem stHex4 mcHex 0).1 = "12345678" ∧
    (renderItem stSD1 mcFF 0).1 = "  -1" ∧
    (renderItem stF4 mcF 0).1 = "         1.5" := by
  decide

/-- C8: evaluated at a selection spanning exactly row 1 of the window
(range [4,8) with `itemRowByteLen = 4` in `stSel`), the item-pane highlight
is not a single full-row rectangle: the always-drawn bottom piece (its guard
is commented out in the source) adds a rectangle on row 2 — the row below
the selection — and the main block's bottom-right corner comes from the
ascii pane (x = 103), far beyond the item pane. -/
theorem fillSelectionBackground_full_row_extra_piece :
    fillSelectionBackground stSel selRow false =
      [{ x1 := 0, y1 := 2, x2 := 1, y2 := 2 }, { x1 := 0, y1 := 1, x2 := 103, y2 := 1 }] ∧
    (fillSelectionBackground stSel selRow false).length ≠ 1 := by
  decide

/-- C9 (counterexample): for a two-byte item whose first byte is 0x00, the
item-pane color from `readItem` is the default color, not the zero-byte
class that `itemColor` assigns to that first byte: the classification is
applied to items only when `itemByteLen = 1`. -/
theorem readItem_multibyte_color_counterexample :
    (readItem stW2 mc00 0).2 = Color.defColor ∧
    itemColor 0x00 = Color.b0x00 ∧
    stW2.itemByteLen = 2 ∧
    Color.defColor ≠ Color.b0x00 := by
  decide

/-- C9 (amended): the item pane colors a run by the classification of its
first byte only for single-byte items; for item widths 2, 4 and 8 `readItem`
always hands back the default color, while the text pane classifies every
byte individually via `itemColor`. -/
theorem readItem_color_by_width (st : LayoutState) (mc : MemoryCache) (offset : Nat) :
    (st.itemByteLen = 1 →
      (readItem st mc offset).2 = itemColor ((readBytesAt mc offset st.itemByteLen).getD 0 0)) ∧
    ((st.itemByteLen = 2 ∨ st.itemByteLen = 4 ∨ st.itemByteLen = 8) →
      (readItem st mc offset).2 = Color.defColor) ∧
    (renderAscii mc offset).2 = itemColor ((readBytesAt mc offset 1).getD 0 0) := by
  refine ⟨?_, ?_, rfl⟩
  · intro h
    simp [readItem, h]
  · rintro (h | h | h) <;> simp [readItem, h]

/-- C9 (witness): the amended statement applied to the concrete two-byte
state `stW2` over the bytes 00 41. -/
theorem readItem_color_by_width_witness :
    (readItem stW2 mc00 0).2 = Color.defColor :=
  (readItem_color_by_width stW2 mc00 0).2.1 (Or.inl (by decide))

/-- C1 (counterexample): in the valid two-byte layout `stPair`, the visible
address 1 is not the base address of its item, and the round trip
`screenPosToAddr ∘ itemRectangle` sends it to that base address 0, not back
to 1: the round trip only recovers item-aligned addresses. -/
theorem screenPosToAddr_roundtrip_counterexample :
    (stPair.itemByteLen ∈ ([1, 2, 4, 8] : List Nat) ∧
      0 < stPair.itemColumns ∧ 0 < stPair.itemGroupSize) ∧
    (stPair.startAddress ≤ 1 ∧ 1 < stPair.startAddress + bytesPerScreen stPair) ∧
    screenPosToAddr stPair (itemRectangleTopLeft stPair (1 - stPair.startAddress)) ≠ 1 := by
  decide

/-- C10: backward navigation at cursor address 0 wraps modulo `2^64`:
char-left lands on `2^64 - itemByteLen` and line-up on
`2^64 - itemRowByteLen`, with no clamping and no failure — `moveCursor`
adds the sign-extended offset in `uint64_t` arithmetic and `setCursorAddr`
stores the result unconditionally. -/
theorem moveCursor_wraps_at_zero (st : LayoutState)
    (h0 : st.cursorAddr = 0)
    (hB : 0 < st.itemByteLen) (hB2 : st.itemByteLen < 2 ^ 64)
    (hR : 0 < itemRowByteLen st) (hR2 : itemRowByteLen st < 2 ^ 64) :
    (keyPressEvent st KeyCmd.charLeft).cursorAddr = 2 ^ 64 - st.itemByteLen ∧
    (keyPressEvent st KeyCmd.lineUp).cursorAddr = 2 ^ 64 - itemRowByteLen st := by
  constructor <;>
  · simp only [keyPressEvent, moveCursor, setCursorAddr_cursorAddr, h0]
    omega

/-- C10 (witness): the default configuration (byteLen 1, cursor at 0) after
char-left. -/
theorem moveCursor_wraps_at_zero_witness :
    (keyPressEvent defaultState KeyCmd.charLeft).cursorAddr
      = 2 ^ 64 - defaultState.itemByteLen :=
  (moveCursor_wraps_at_zero defaultState (by decide) (by decide) (by decide)
    (by decide) (by decide)).1

/-- C4: `setCursorAddr` leaves `startAddress` unchanged when the target lies
inside the window; outside it, the row-aligned target becomes the new start
address, except that a target aligning exactly to the address just past the
window advances the window by exactly one row. -/
theorem setCursorAddr_window (st : LayoutState) (addr : Nat)
    (hW : st.startAddress + bytesPerScreen st < 2 ^ 64)
    (hV : 0 < st.visibleLines) :
    (setCursorAddr st addr).cursorAddr = addr ∧
    ((st.startAddress ≤ addr ∧ addr < st.startAddress + bytesPerScreen st) →
      (setCursorAddr st addr).startAddress = st.startAddress) ∧
    (¬(st.startAddress ≤ addr ∧ addr < st.startAddress + bytesPerScreen st) →
      (addr - addr % itemRowByteLen st = st.startAddress + bytesPerScreen st →
        (setCursorAddr st addr).startAddress = st.startAddress + itemRowByteLen st) ∧
      (addr - addr % itemRowByteLen st ≠ st.startAddress + bytesPerScreen st →
        (setCursorAddr st addr).startAddress = addr - addr % itemRowByteLen st)) := by
  have hwe : windowEnd st = st.startAddress + bytesPerScreen st := Nat.mod_eq_of_lt hW
  have hRb : itemRowByteLen st ≤ bytesPerScreen st := by
    unfold bytesPerScreen
    exact Nat.le_mul_of_pos_right _ hV
  have haddr2 : (if itemRowByteLen st ≠ 1 then addr - addr % itemRowByteLen st else addr)
      = addr - addr % itemRowByteLen st := by
    split
    · rfl
    · next h =>
      rw [not_not] at h
      rw [h, Nat.mod_one, Nat.sub_zero]
  refine ⟨setCursorAddr_cursorAddr st addr, ?_, ?_⟩
  · intro hin
    have hc : addr ≥ st.startAddress ∧ addr < windowEnd st := ⟨hin.1, hwe ▸ hin.2⟩
    simp only [setCursorAddr, if_pos hc]
  · intro hout
    have hc2 : ¬(addr ≥ st.startAddress ∧ addr < st.startAddress + bytesPerScreen st) :=
      fun h => hout ⟨h.1, h.2⟩
    constructor
    · intro heq
      simp only [setCursorAddr, hwe, if_neg hc2, haddr2, if_pos heq]
      apply Nat.mod_eq_of_lt
      omega
    · intro hne
      simp only [setCursorAddr, hwe, if_neg hc2, haddr2, if_neg hne]

/-- C4 (witness): in `stRow4` (window [0, 8), row length 4), the target 8 is
row-aligned and just past the window, so the window advances by exactly one
row while the cursor lands on 8. -/
theorem setCursorAddr_window_witness :
    (setCursorAddr stRow4 8).startAddress = stRow4.startAddress + itemRowByteLen stRow4 ∧
    (setCursorAddr stRow4 8).cursorAddr = 8 :=
  ⟨((setCursorAddr_window stRow4 8 (by decide) (by decide)).2.2 (by decide)).1 (by decide),
   (setCursorAddr_window stRow4 8 (by decide) (by decide)).1⟩

/-- A divisor of both `m` and `k` divides `m % k`. -/
theorem dvd_mod_of_dvd_dvd {d m k : Nat} (h1 : d ∣ m) (h2 : d ∣ k) : d ∣ m % k := by
  rw [Nat.mod_def]
  exact Nat.dvd_sub' h1 (h2.mul_right _)

/-- C1 (amended): for every valid layout and every visible address that is
item-aligned (`itemByteLen` divides its window offset — exactly the
addresses for which `itemRectangle` is queried by the drawing and cursor
code), mapping to the item rectangle and back through `screenPosToAddr`
recovers the address; unaligned addresses land on their item's base address,
as the counterexample shows. -/
theorem screenPosToAddr_itemRectangle_roundtrip (st : LayoutState) (a : Nat)
    (hB : st.itemByteLen ∈ ([1, 2, 4, 8] : List Nat))
    (hG : 0 < st.itemGroupSize) (hC : 0 < st.itemColumns)
    (hCW : 0 < st.charWidth) (hLH : 0 < st.lineHeight) (hCL : 0 < st.itemCharLen)
    (h1 : st.startAddress ≤ a)
    (h2 : a < st.startAddress + bytesPerScreen st)
    (hW : st.startAddress + bytesPerScreen st ≤ 2 ^ 64)
    (hDvd : st.itemByteLen ∣ a - st.startAddress) :
    screenPosToAddr st (itemRectangleTopLeft st (a - st.startAddress)) = a := by
  have hBpos : 0 < st.itemByteLen := by
    simp only [List.mem_cons, List.not_mem_nil, or_false] at hB
    omega
  have hGB : 0 < itemGroupByteLen st := Nat.mul_pos hG hBpos
  have hRB : 0 < itemRowByteLen st := Nat.mul_pos hC hGB
  have hIW : 0 < itemWidth st := Nat.mul_pos hCL hCW
  have hCEW0 : 0 < columnExWidth st := by
    have := Nat.mul_pos hG hIW
    unfold columnExWidth
    omega
  have hq3 : (a - st.startAddress) % itemRowByteLen st % itemGroupByteLen st / st.itemByteLen
      < st.itemGroupSize := by
    rw [Nat.div_lt_iff_lt_mul hBpos]
    exact Nat.mod_lt _ hGB
  have hterm : (a - st.startAddress) % itemRowByteLen st % itemGroupByteLen st / st.itemByteLen
      * itemWidth st < columnExWidth st := by
    unfold columnExWidth
    calc (a - st.startAddress) % itemRowByteLen st % itemGroupByteLen st / st.itemByteLen
          * itemWidth st
        < st.itemGroupSize * itemWidth st := by
          exact Nat.mul_lt_mul_of_lt_of_le hq3 (Nat.le_refl _) hIW
      _ ≤ st.itemGroupSize * itemWidth st + st.columnSpacing * st.charWidth :=
          Nat.le_add_right _ _
  have hE2 : ((a - st.startAddress) % itemRowByteLen st / itemGroupByteLen st * columnExWidth st
        + (a - st.startAddress) % itemRowByteLen st % itemGroupByteLen st / st.itemByteLen
          * itemWidth st) / columnExWidth st
      = (a - st.startAddress) % itemRowByteLen st / itemGroupByteLen st := by
    rw [Nat.add_comm, Nat.add_mul_div_right _ _ hCEW0, Nat.div_eq_of_lt hterm, Nat.zero_add]
  have hE3 : ((a - st.startAddress) % itemRowByteLen st / itemGroupByteLen st * columnExWidth st
        + (a - st.startAddress) % itemRowByteLen st % itemGroupByteLen st / st.itemByteLen
          * itemWidth st) % columnExWidth st
      = (a - st.startAddress) % itemRowByteLen st % itemGroupByteLen st / st.itemByteLen
          * itemWidth st := by
    rw [Nat.add_comm, Nat.add_mul_mod_self_right, Nat.mod_eq_of_lt hterm]
  have hDvdG : st.itemByteLen ∣ (a - st.startAddress) % itemRowByteLen st % itemGroupByteLen st := by
    have hdR : st.itemByteLen ∣ itemRowByteLen st :=
      ⟨st.itemColumns * st.itemGroupSize, by unfold itemRowByteLen itemGroupByteLen; ring⟩
    have hdG : st.itemByteLen ∣ itemGroupByteLen st :=
      ⟨st.itemGroupSize, by unfold itemGroupByteLen; ring⟩
    exact dvd_mod_of_dvd_dvd (dvd_mod_of_dvd_dvd hDvd hdR) hdG
  have hF1 : (a - st.startAddress) / itemRowByteLen st * itemRowByteLen st
      + (a - st.startAddress) % itemRowByteLen st = a - st.startAddress :=
    Nat.div_add_mod' _ _
  have hF2 : (a - st.startAddress) % itemRowByteLen st / itemGroupByteLen st * itemGroupByteLen st
      + (a - st.startAddress) % itemRowByteLen st % itemGroupByteLen st
      = (a - st.startAddress) % itemRowByteLen st :=
    Nat.div_add_mod' _ _
  have hF3 : (a - st.startAddress) % itemRowByteLen st % itemGroupByteLen st / st.itemByteLen
      * st.itemByteLen
      = (a - st.startAddress) % itemRowByteLen st % itemGroupByteLen st :=
    Nat.div_mul_cancel hDvdG
  unfold screenPosToAddr itemRectangleTopLeft
  simp only [Nat.add_sub_cancel, Nat.mul_div_cancel _ hLH, hE2, hE3,
    Nat.mul_div_cancel _ hIW]
  omega

/-- C1 (witness): the amended round trip applied to the aligned address 0 in
the two-byte layout `stPair`. -/
theorem screenPosToAddr_itemRectangle_roundtrip_witness :
    screenPosToAddr stPair (itemRectangleTopLeft stPair (0 - stPair.startAddress)) = 0 :=
  screenPosToAddr_itemRectangle_roundtrip stPair 0 (by decide) (by decide) (by decide)
    (by decide) (by decide) (by decide) (by decide) (by decide) (by decide) (by decide)

/-- The mask `~(4096-1)` of `updateDataCache`, applied to a 64-bit value,
aligns it down to a multiple of 4096. -/
theorem land_align4096 (x : Nat) (hx : x < 2 ^ 64) :
    x &&& (2 ^ 64 - 4096) = 4096 * (x / 4096) := by
  have hmask : (2 ^ 64 - 4096 : Nat) = (2 ^ 52 - 1) <<< 12 := by
    rw [Nat.shiftLeft_eq]
    norm_num
  have hrhs : 4096 * (x / 4096) = (x >>> 12) <<< 12 := by
    rw [Nat.shiftLeft_eq, Nat.shiftRight_eq_div_pow, Nat.mul_comm]
  rw [hmask, hrhs]
  apply Nat.eq_of_testBit_eq
  intro i
  rw [Nat.testBit_land, Nat.testBit_shiftLeft, Nat.testBit_shiftLeft,
    Nat.testBit_shiftRight, Nat.testBit_two_pow_sub_one]
  by_cases h12 : 12 ≤ i
  · have h' : 12 + (i - 12) = i := by omega
    by_cases h64 : i < 64
    · have h52 : i - 12 < 52 := by omega
      simp [h12, h52, h']
    · have h52 : ¬(i - 12 < 52) := by omega
      have hfalse : x.testBit i = false :=
        Nat.testBit_eq_false_of_lt
          (lt_of_lt_of_le hx (Nat.pow_le_pow_right (by norm_num) (by omega)))
      simp [h12, h52, h', hfalse]
  · simp [h12]

/-- C2: after the cache refresh, the fetched page-aligned pages fully cover
the window `[startAddress, startAddress + bytesPerScreen)`, and reading any
window offset through `dataPtr` succeeds and returns exactly the byte the
byte source holds at `startAddress + o`. -/
theorem updateDataCache_coverage (mem : Nat → Nat) (st : LayoutState) (mc : MemoryCache)
    (hstart : st.startAddress < 2 ^ 64)
    (hW : st.startAddress + bytesPerScreen st ≤ 2 ^ 64)
    (hbps : bytesPerScreen st + 8192 ≤ 2 ^ 64) :
    ((updateDataCache (pageReadOf mem) st mc).firstBlockAddr ≤ st.startAddress ∧
      st.startAddress + bytesPerScreen st
        ≤ (updateDataCache (pageReadOf mem) st mc).firstBlockAddr
          + 4096 * (updateDataCache (pageReadOf mem) st mc).blocks.length) ∧
    ∀ o, o < bytesPerScreen st →
      dataPtr (updateDataCache (pageReadOf mem) st mc) o
        = some (mem (st.startAddress + o)) := by
  have hoff : st.startAddress &&& (2 ^ 64 - 4096) = 4096 * (st.startAddress / 4096) :=
    land_align4096 _ hstart
  have hAoff : st.startAddress - 4096 * (st.startAddress / 4096) = st.startAddress % 4096 := by
    omega
  have hmc : updateDataCache (pageReadOf mem) st mc =
      { firstBlockAddr := 4096 * (st.startAddress / 4096)
        firstBlockOffset := st.startAddress % 4096
        blocks := (List.range
            (((st.startAddress % 4096 + bytesPerScreen st + (4096 - 1)) &&& (2 ^ 64 - 4096))
              / 4096)).map
          (fun i => pageReadOf mem ((4096 * (st.startAddress / 4096) + 4096 * i) % 2 ^ 64)) } := by
    simp only [updateDataCache, hoff, hAoff]
  have hcount : ((st.startAddress % 4096 + bytesPerScreen st + (4096 - 1)) &&& (2 ^ 64 - 4096))
      / 4096 = (st.startAddress % 4096 + bytesPerScreen st + 4095) / 4096 := by
    rw [land_align4096 _ (by omega)]
    rw [Nat.mul_div_cancel_left _ (by norm_num : (0 : Nat) < 4096)]
  rw [hmc]
  refine ⟨⟨by dsimp only; omega, ?_⟩, ?_⟩
  · dsimp only
    rw [List.length_map, List.length_range, hcount]
    omega
  · intro o ho
    unfold dataPtr
    dsimp only
    rw [hcount]
    have hbid : (o + st.startAddress % 4096) / 4096
        < (st.startAddress % 4096 + bytesPerScreen st + 4095) / 4096 := by
      omega
    rw [List.get?_map, List.get?_range hbid, Option.map_some']
    have hbase : (4096 * (st.startAddress / 4096)
          + 4096 * ((o + st.startAddress % 4096) / 4096)) % 2 ^ 64
        = 4096 * (st.startAddress / 4096) + 4096 * ((o + st.startAddress % 4096) / 4096) := by
      apply Nat.mod_eq_of_lt
      omega
    simp only [Option.some_bind, hbase, pageReadOf]
    rw [List.get?_map, List.get?_range (by omega : (o + st.startAddress % 4096) % 4096 < 4096),
      Option.map_some']
    have haddr : 4096 * (st.startAddress / 4096) + 4096 * ((o + st.startAddress % 4096) / 4096)
        + (o + st.startAddress % 4096) % 4096 = st.startAddress + o := by
      omega
    rw [haddr]

/-- C2 (witness): the coverage theorem applied to the default layout at
address 5000 over two visible lines, with the `a % 256` byte source at
window offset 7. -/
theorem updateDataCache_coverage_witness :
    dataPtr (updateDataCache (pageReadOf memMod256) stMid mcNil) 7
      = some (memMod256 (stMid.startAddress + 7)) :=
  (updateDataCache_coverage memMod256 stMid mcNil (by decide) (by decide) (by decide)).2
    7 (by decide)

end HexWidget
